import Mathlib

/-!
Verification of the hub-tool-rs paginated fetch client.

Shallow embedding of the repository's core code:

* `src/src/lib.rs` — the Docker Hub client: the `ApiResult<T>` page envelope
  and the `fetch` function, which retrieves the first page and then fans out
  one task per remaining page, merging the results with `join_all`.
* `src/src/registry.rs` — the Docker Registry client: `list_repositories`
  and `list_tags` body handling over untyped JSON.
* `src/src/app.rs` — the terminal browser's selection state: `App::new`,
  `select_next`, `select_previous`.

External library behaviour (reqwest, serde, tokio) is either parameterised
(the network is a function from requests to responses, serde decoding is a
function argument) or modelled minimally where the code depends on it
(`serde_json::Value` indexing, `join_all`'s delivery of task outcomes).
Rust `usize` arithmetic is embedded over `Nat`, with the partial operations
(division by zero, subtraction underflow under overflow checks) made
explicit as `panicked` outcomes.
-/

namespace HubTool

/-! A model of `serde_json::Value`. -/

/-- Model of `serde_json::Value`: JSON values. Numbers are modelled as integers,
which covers every numeric value this client reads (counts, ids). -/
inductive Json where
  | null
  | bool (b : Bool)
  | num (n : Int)
  | str (s : String)
  | arr (elems : List Json)
  | obj (fields : List (String × Json))
deriving Repr, BEq

/-- Rust `Value::index` with a string key (`response["repositories"]`): on an
object, the value stored at the key, `Null` when the key is absent; on any
non-object value, `Null`. -/
def Json.index (j : Json) (key : String) : Json :=
  match j with
  | .obj fields =>
    match fields.lookup key with
    | some v => v
    | none => .null
  | _ => .null

/-- Rust `Value::as_array`. -/
def Json.asArray : Json → Option (List Json)
  | .arr xs => some xs
  | _ => none

/-- Rust `Value::as_str`. -/
def Json.asStr : Json → Option String
  | .str s => some s
  | _ => none

/-! Embedding of `src/src/registry.rs` — the `DockerRegistry` body handling.

`list_repositories` and `list_tags` each send one GET, parse the body into
a `Value`, and then run the same extraction over a fixed key:

```rust
Ok(response["repositories"].as_array()
    .ok_or("Invalid response format")?
    .iter()
    .filter_map(|v| v.as_str().map(String::from))
    .collect())
```

The network and JSON layers are outside this extraction; we embed the
extraction applied to the parsed response body. -/

/-- The shared body-extraction of `DockerRegistry::list_repositories` /
`list_tags` (src/src/registry.rs lines 32–37 and 44–49). -/
def extractNamedArray (key : String) (response : Json) : Except String (List String) :=
  match (response.index key).asArray with
  | some xs => .ok (xs.filterMap Json.asStr)
  | none => .error "Invalid response format"

/-- Method `DockerRegistry::list_repositories` applied to a parsed response body. -/
def list_repositories_body (response : Json) : Except String (List String) :=
  extractNamedArray "repositories" response

/-- Method `DockerRegistry::list_tags` applied to a parsed response body. -/
def list_tags_body (response : Json) : Except String (List String) :=
  extractNamedArray "tags" response

/-! Embedding of `src/src/app.rs` — the selection state of the browser. -/

/-- A computation that either produces a value or hits a Rust panic
(arithmetic overflow under overflow checks). -/
inductive Panics (α : Type) where
  | panicked (msg : String)
  | value (v : α)
deriving Repr, BEq, DecidableEq

/-- Rust `usize` subtraction `a - b`: panics on underflow (overflow checks
as in debug builds; in release it would wrap to `2^64 - (b - a)`). -/
def usizeSub (a b : Nat) : Panics Nat :=
  if b ≤ a then .value (a - b) else .panicked "attempt to subtract with overflow"

/-- Struct `Container { url, info }` of `app.rs`. -/
structure Container where
  url : String
  info : Option Json
deriving Repr, BEq

/-- Struct `Containers` of `app.rs`; of `ListState`
we keep the selection, `list_state.selected()`. -/
structure Containers where
  items : List Container
  item_enter : Bool
  list_state : Option Nat
deriving Repr, BEq

/-- Struct `App { containers, should_quit }` (the registry handle carries
no state the selector reads). -/
structure App where
  containers : Containers
  should_quit : Bool
deriving Repr, BEq

/-- Constructor `App::new` (src/src/app.rs lines 31–55): the fetched repository list —
`list_repositories().await.unwrap_or(vec![])` — becomes the items, and the
selection is initialised to `Some(0)` unconditionally. -/
def App.new (fetched : Except String (List String)) : App :=
  let items :=
    (match fetched with
     | .ok v => v
     | .error _ => []).map (fun url => { url := url, info := none : Container })
  { containers := { items := items, item_enter := false, list_state := some 0 }
    should_quit := false }

/-- Method `App::select_next` (src/src/app.rs lines 82–94):

```rust
let i = match self.containers.list_state.selected() {
    Some(i) => if i >= self.containers.items.len() - 1 { i } else { i + 1 },
    None => 0,
};
self.containers.list_state.select(Some(i));
```

`items.len() - 1` is `usize` subtraction, hence partial at `len() == 0`. -/
def select_next (c : Containers) : Panics Containers :=
  match c.list_state with
  | some i =>
    match usizeSub c.items.length 1 with
    | .panicked msg => .panicked msg
    | .value lastIdx =>
      .value { c with list_state := some (if i ≥ lastIdx then i else i + 1) }
  | none => .value { c with list_state := some 0 }

/-- Method `App::select_previous` (src/src/app.rs lines 96–108): total, since the
subtraction `i - 1` is guarded by `i == 0`. -/
def select_previous (c : Containers) : Containers :=
  { c with
    list_state := some (match c.list_state with
      | some i => if i = 0 then 0 else i - 1
      | none => 0) }

/-- A key event the selector reacts to: `j`/Down or `k`/Up. -/
inductive Move where
  | up
  | down
deriving Repr, BEq, DecidableEq

/-- Dispatch of one selection move (src/src/app.rs lines 73–74). -/
def applyMove (c : Containers) : Move → Panics Containers
  | .down => select_next c
  | .up => .value (select_previous c)

/-- A sequence of selection moves, stopping at the first panic. -/
def applyMoves (c : Containers) : List Move → Panics Containers
  | [] => .value c
  | m :: ms =>
    match applyMove c m with
    | .panicked msg => .panicked msg
    | .value c' => applyMoves c' ms

/-! Embedding of `src/src/lib.rs` — the Docker Hub client and its `fetch`.

```rust
pub async fn fetch<T>(client: &Client, url: &Url) -> anyhow::Result<Vec<T>>
```

We embed the network as a function from requests to send outcomes: a send
either fails at transport level (`Err(e)` from `send()`) or yields a
response whose body may or may not parse as a `Value`. serde's
`from_value::<ApiResult<T>>` is a parameter `decode`, since it is derived
library code. -/

/-- Envelope `ApiResult<T>` (src/src/lib.rs lines 21–27): the Hub page envelope. -/
structure ApiResult (T : Type) where
  count : Nat
  next : Option String
  previous : Option String
  results : List T
deriving Repr, BEq, DecidableEq

/-- An outbound GET as the code builds it: the URL plus the query pairs
added with `.query(...)`. -/
structure PageRequest where
  url : String
  query : List (String × Nat)
deriving Repr, BEq, DecidableEq

/-- The first request (line 186): `client.get(url.clone()).send()` — no
query parameters are attached. -/
def firstRequest (url : String) : PageRequest :=
  { url := url, query := [] }

/-- A fan-out page request (lines 205–208):
`client.get(url).query(&[("page", page), ("page_size", page_size)])`. -/
def pageRequest (url : String) (page pageSize : Nat) : PageRequest :=
  { url := url, query := [("page", page), ("page_size", pageSize)] }

/-- What `send()` hands back on success: the reqwest response, of which the
code can read the status, headers (here: `X-Retry-After`), and the body via
`.json::<Value>()` (an `Err` when the body is not JSON). -/
structure Response where
  status : Nat
  retryAfter : Option String
  body : Except String Json
deriving Repr

/-- The error paths of one page fetch, one constructor per `bail!`/`context`
site of the pipeline (lines 186–193 and 205–218). -/
inductive FetchErr where
  /-- Case `Err(e)` from `send().await` → `bail!("failed with error ...")`. -/
  | sendFailed (msg : String)
  /-- Case `Err(e)` from `response.json::<Value>().await` → `bail!`. -/
  | jsonFailed (msg : String)
  /-- Error of `serde_json::from_value::<ApiResult<T>>`, wrapped by
  `.context("parsing the output json into an ApiResult<T> struct failed")`. -/
  | parseFailed (msg : String)
deriving Repr, BEq, DecidableEq

/-- One single-page fetch, after `send()`: the `match` pipeline that both
the first fetch (lines 186–193) and each spawned task body (lines 205–218)
run. The HTTP status code and the response headers are never consulted. -/
def fetchOnce {T : Type} (decode : Json → Except String (ApiResult T))
    (sendResult : Except String Response) : Except FetchErr (ApiResult T) :=
  match sendResult with
  | .ok response =>
    match response.body with
    | .ok out =>
      match decode out with
      | .ok r => .ok r
      | .error e => .error (.parseFailed e)
    | .error e => .error (.jsonFailed e)
  | .error e => .error (.sendFailed e)

/-- What awaiting one spawned task yields (lines 226–235): `Ok(Ok(r))`,
`Ok(Err(e))`, or `Err(e)` when the task future itself failed to run to
completion. -/
inductive TaskResult (T : Type) where
  | ok (r : ApiResult T)
  | fetchErr (e : FetchErr)
  | joinErr (msg : String)
deriving Repr, BEq, DecidableEq

/-- The overall outcome of `fetch`, one constructor per exit path. -/
inductive FetchResult (T : Type) where
  /-- Success: `Ok(results)`. -/
  | ok (items : List T)
  /-- The first fetch failed; its error propagates via `?` / `bail!`. -/
  | failed (e : FetchErr)
  /-- A task returned `Ok(Err(e))` → `bail!("failed to fetch: {:?}", e)`. -/
  | taskFailed (e : FetchErr)
  /-- A task future failed →
  `bail!("failed capturing the task future: {:?}", e)`. -/
  | joinFailed (msg : String)
  /-- A Rust panic: `(count + page_size - 1) / page_size` with
  `page_size == 0` divides by zero (and, at `count == 0`, the `usize`
  addition/subtraction underflows first under overflow checks). -/
  | panicked (msg : String)
deriving Repr, BEq, DecidableEq

/-- Computation `pages = (count + page_size - 1) / page_size` (line 197) and the
loop `for page in 2..pages` (line 201): the page numbers actually requested,
in spawn order. Rust's range `2..pages` is `[2, pages)`, which has
`pages - 2` elements (empty when `pages ≤ 2`). -/
def pagesToFetch (count pageSize : Nat) : List Nat :=
  List.range' 2 ((count + pageSize - 1) / pageSize - 2)

/-- The body of one spawned task (lines 204–219): the single-page pipeline
for `pageRequest url page pageSize`, packaged as the task's outcome. -/
def taskRun {T : Type} (decode : Json → Except String (ApiResult T))
    (net : PageRequest → Except String Response)
    (url : String) (page pageSize : Nat) : TaskResult T :=
  match fetchOnce decode (net (pageRequest url page pageSize)) with
  | .ok r => .ok r
  | .error e => .fetchErr e

/-- The state of `join_all`'s barrier: slot `i` holds task `i`'s outcome
once that task has completed, in the order completions arrive. -/
def joinSlots {α : Type} (tasks : List α) (completed : List Nat) : List (Option α) :=
  completed.foldl (fun slots i => slots.set i tasks[i]?)
    (List.replicate tasks.length none)

/-- Barrier `join_all(tasks).await` (line 224) may return exactly when every
spawned task has completed — it never returns early. -/
def joinAllReturns {α : Type} (tasks : List α) (completed : List Nat) : Prop :=
  ∀ o ∈ joinSlots tasks completed, o.isSome

/-- The list `join_all` hands back once all tasks completed: the slots read
back in spawn order (for a complete set of completions this is exactly the
spawn-order outcome list, whatever order completions arrived in). -/
def joinAll {α : Type} (tasks : List α) (completed : List Nat) : List α :=
  (joinSlots tasks completed).filterMap id

/-- The `for future in futures` reduction (lines 225–237): extend the
accumulated items on `Ok(Ok(_))`, bail out on the first failing outcome. -/
def reduceOutcomes {T : Type} (acc : List T) : List (TaskResult T) → FetchResult T
  | [] => .ok acc
  | .ok r :: rest => reduceOutcomes (acc ++ r.results) rest
  | .fetchErr e :: _ => .taskFailed e
  | .joinErr msg :: _ => .joinFailed msg

/-- Function `fetch` (src/src/lib.rs lines 182–242). Here `decode` stands for serde's
derived `from_value::<ApiResult<T>>`; `net` is the network; `completed` is
the order in which the spawned tasks complete at the `join_all` barrier (a
permutation of their indices in any actual execution). -/
def fetch {T : Type} (decode : Json → Except String (ApiResult T))
    (net : PageRequest → Except String Response)
    (url : String) (completed : List Nat) : FetchResult T :=
  match fetchOnce decode (net (firstRequest url)) with
  | .error e => .failed e
  | .ok result =>
    match result.next with
    | some _ =>
      let pageSize := result.results.length
      if pageSize = 0 then .panicked "attempt to divide by zero"
      else
        let tasks := (pagesToFetch result.count pageSize).map
          (fun page => taskRun decode net url page pageSize)
        reduceOutcomes result.results (joinAll tasks completed)
    | none => .ok result.results

/-- The requests `fetch` sends, in issue order: the bare first request,
then — when `next` is present and the page-size division does not panic —
one request per page in `pagesToFetch`. Mirrors the control flow of
`fetch`. -/
def requestsMade {T : Type} (decode : Json → Except String (ApiResult T))
    (net : PageRequest → Except String Response) (url : String) : List PageRequest :=
  firstRequest url ::
    match fetchOnce decode (net (firstRequest url)) with
    | .error _ => []
    | .ok result =>
      match result.next with
      | some _ =>
        let pageSize := result.results.length
        if pageSize = 0 then []
        else (pagesToFetch result.count pageSize).map
          (fun page => pageRequest url page pageSize)
      | none => []

/-! The specification's view of a single-page fetch, kept for comparison
with the code's `fetchOnce`. -/

/-- The spec's error taxonomy (spec section 7): exactly one kind per
failure. -/
inductive SpecOutcome (T : Type) where
  | success (r : ApiResult T)
  | unauthorized
  | notFound
  | rateLimited (retryAfter : Option String)
  | transportError (detail : String)
  | decodeError (detail : String)
deriving Repr, BEq

/-- Modelled from the spec (section 4.1): the deterministic HTTP-status →
outcome mapping the Single-Page Fetcher is specified to perform. Written
from the spec's words, to be compared against the code's `fetchOnce`. -/
def specFetchOutcome {T : Type} (decode : Json → Except String (ApiResult T))
    (sendResult : Except String Response) : SpecOutcome T :=
  match sendResult with
  | .error e => .transportError e
  | .ok resp =>
    if resp.status = 200 ∨ resp.status = 201 then
      match resp.body with
      | .ok out =>
        match decode out with
        | .ok r => .success r
        | .error e => .decodeError e
      | .error e => .decodeError e
    else if resp.status = 401 then .unauthorized
    else if resp.status = 404 then .notFound
    else if resp.status = 429 then .rateLimited resp.retryAfter
    else .transportError (toString resp.status)

/-! Concrete fixtures: the spec's own worked scenario (section 8), a first
page with `count = 12`, five results and `next` present, so that the
effective page size is 5 and `ceil(12/5) = 3` pages exist in total. -/

/-- Items of demo page `p` of the scenario: pages 1 and 2 hold five items
each, page 3 holds the remaining two. -/
def demoItems : Nat → List String
  | 1 => ["a1", "a2", "a3", "a4", "a5"]
  | 2 => ["b1", "b2", "b3", "b4", "b5"]
  | 3 => ["c1", "c2"]
  | _ => []

/-- The envelope the server returns for demo page `p`. -/
def demoPage (p : Nat) : ApiResult String :=
  { count := 12
    next := if p < 3 then some "https://hub.docker.com/?page=next" else none
    previous := none
    results := demoItems p }

/-- Demo decoding: the response bodies are tagged with their page number. -/
def demoDecode : Json → Except String (ApiResult String)
  | .num (Int.ofNat p) => .ok (demoPage p)
  | _ => .error "missing field"

/-- Demo network: the bare first request serves page 1; a request with a
`page` query pair serves that page. Always HTTP 200. -/
def demoNet (req : PageRequest) : Except String Response :=
  match req.query with
  | [] => .ok { status := 200, retryAfter := none, body := .ok (.num 1) }
  | (_, p) :: _ => .ok { status := 200, retryAfter := none, body := .ok (.num (Int.ofNat p)) }

/-- A decode stub for the malformed-server scenario: the first page claims
`count = 7` and `next` present but carries zero items. -/
def emptyPageDecode : Json → Except String (ApiResult String) :=
  fun _ => .ok { count := 7, next := some "n", previous := none, results := [] }

/-- A network that always answers 200 with a JSON body. -/
def plainNet (_ : PageRequest) : Except String Response :=
  .ok { status := 200, retryAfter := none, body := .ok .null }

/-- A 401 response whose body still parses as the demo page envelope. -/
def resp401 : Response :=
  { status := 401, retryAfter := none, body := .ok (.num 1) }

/-- Two spawned page tasks mid-flight: the task of page 2 has already
reported a rate-limit failure, the task of page 3 would succeed but is
still running. -/
def cexTasks : List (TaskResult String) :=
  [TaskResult.fetchErr (.sendFailed "429 Too Many Requests"),
   TaskResult.ok (demoPage 3)]

/-- A three-item browser list with the first item selected. -/
def threeContainers : Containers :=
  { items := [{ url := "a", info := none }, { url := "b", info := none }, { url := "c", info := none }]
    item_enter := false
    list_state := some 0 }

/-! Helper lemmas on the join_all barrier: each completion writes one slot,
and reading the slots back in spawn order recovers the spawn-order outcome
list however the completions were interleaved. -/

lemma foldl_set_length {α : Type} (tasks : List α) (completed : List Nat)
    (init : List (Option α)) :
    (completed.foldl (fun slots i => slots.set i tasks[i]?) init).length
      = init.length := by
  induction completed generalizing init with
  | nil => rfl
  | cons i rest ih => simp [List.foldl_cons, ih, List.length_set]

lemma foldl_set_getElem? {α : Type} (tasks : List α) (completed : List Nat)
    (init : List (Option α)) (j : Nat) :
    (completed.foldl (fun slots i => slots.set i tasks[i]?) init)[j]? =
      if j ∈ completed ∧ j < init.length then some tasks[j]? else init[j]? := by
  induction completed generalizing init with
  | nil => simp
  | cons i rest ih =>
    rw [List.foldl_cons, ih, List.length_set]
    by_cases hrest : j ∈ rest ∧ j < init.length
    · simp [hrest.1, hrest.2]
    · rw [if_neg hrest, List.getElem?_set]
      by_cases hij : i = j
      · subst hij
        by_cases hlt : i < init.length
        · simp [hlt]
        · simp [hlt, List.getElem?_eq_none (le_of_not_lt hlt)]
      · have : (j ∈ i :: rest ∧ j < init.length) ↔ (j ∈ rest ∧ j < init.length) := by
          constructor
          · rintro ⟨hm, hl⟩
            rcases List.mem_cons.mp hm with h | h
            · exact absurd h.symm hij
            · exact ⟨h, hl⟩
          · rintro ⟨hm, hl⟩
            exact ⟨List.mem_cons_of_mem _ hm, hl⟩
        rw [if_neg hij, if_neg (fun h => hrest (this.mp h))]

lemma joinSlots_length {α : Type} (tasks : List α) (completed : List Nat) :
    (joinSlots tasks completed).length = tasks.length := by
  unfold joinSlots
  rw [foldl_set_length, List.length_replicate]

lemma joinSlots_getElem? {α : Type} (tasks : List α) (completed : List Nat)
    (j : Nat) :
    (joinSlots tasks completed)[j]? =
      if j ∈ completed ∧ j < tasks.length then some tasks[j]?
      else if j < tasks.length then some none else none := by
  unfold joinSlots
  rw [foldl_set_getElem?, List.length_replicate, List.getElem?_replicate]

lemma joinAll_of_complete {α : Type} (tasks : List α) (completed : List Nat)
    (hall : ∀ j < tasks.length, j ∈ completed) :
    joinAll tasks completed = tasks := by
  unfold joinAll
  have hslots : joinSlots tasks completed = tasks.map some := by
    apply List.ext_getElem?
    intro j
    rw [joinSlots_getElem?, List.getElem?_map]
    by_cases hj : j < tasks.length
    · simp [hall j hj, hj, List.getElem?_eq_getElem hj]
    · simp [hj, List.getElem?_eq_none (le_of_not_lt hj)]
  rw [hslots, List.filterMap_map]
  simp

lemma joinAllReturns_iff_helper {α : Type} (tasks : List α) (completed : List Nat) :
    joinAllReturns tasks completed ↔ ∀ j < tasks.length, j ∈ completed := by
  constructor
  · intro h j hj
    by_contra hmem
    have hslot : (joinSlots tasks completed)[j]? = some none := by
      rw [joinSlots_getElem?]
      simp [hmem, hj]
    have : (none : Option α) ∈ joinSlots tasks completed :=
      List.mem_iff_getElem?.mpr ⟨j, hslot⟩
    simpa using h none this
  · intro h o ho
    rcases List.mem_iff_getElem?.mp ho with ⟨j, hget⟩
    rw [joinSlots_getElem?] at hget
    by_cases hj : j < tasks.length
    · rw [if_pos ⟨h j hj, hj⟩] at hget
      rw [List.getElem?_eq_getElem hj] at hget
      rw [← Option.some_inj.mp hget]
      rfl
    · simp [hj] at hget

/-! Helper lemmas on the reduction loop over awaited task outcomes. -/

lemma reduceOutcomes_all_ok {T : Type} (rs : List (ApiResult T)) (acc : List T) :
    reduceOutcomes acc (rs.map TaskResult.ok) =
      .ok (acc ++ (rs.map (fun r => r.results)).flatten) := by
  induction rs generalizing acc with
  | nil => simp [reduceOutcomes]
  | cons r rest ih => simp [reduceOutcomes, ih, List.append_assoc]

lemma reduceOutcomes_ok_inv {T : Type} (outs : List (TaskResult T)) (acc l : List T)
    (h : reduceOutcomes acc outs = .ok l) :
    ∃ rs : List (ApiResult T), outs = rs.map TaskResult.ok ∧
      l = acc ++ (rs.map (fun r => r.results)).flatten := by
  induction outs generalizing acc with
  | nil =>
    refine ⟨[], rfl, ?_⟩
    simp only [reduceOutcomes, FetchResult.ok.injEq] at h
    simp [h]
  | cons o rest ih =>
    cases o with
    | ok r =>
      rcases ih (acc ++ r.results) (by simpa [reduceOutcomes] using h) with ⟨rs, hrs, hl⟩
      exact ⟨r :: rs, by simp [hrs], by simp [hl, List.append_assoc]⟩
    | fetchErr e => simp [reduceOutcomes] at h
    | joinErr m => simp [reduceOutcomes] at h

lemma reduceOutcomes_first_fetchErr {T : Type} (rs : List (ApiResult T))
    (e : FetchErr) (rest : List (TaskResult T)) (acc : List T) :
    reduceOutcomes acc (rs.map TaskResult.ok ++ TaskResult.fetchErr e :: rest)
      = .taskFailed e := by
  induction rs generalizing acc with
  | nil => simp [reduceOutcomes]
  | cons r rs ih => simp [reduceOutcomes, ih]

lemma reduceOutcomes_first_joinErr {T : Type} (rs : List (ApiResult T))
    (m : String) (rest : List (TaskResult T)) (acc : List T) :
    reduceOutcomes acc (rs.map TaskResult.ok ++ TaskResult.joinErr m :: rest)
      = .joinFailed m := by
  induction rs generalizing acc with
  | nil => simp [reduceOutcomes]
  | cons r rs ih => simp [reduceOutcomes, ih]

lemma flatten_map_drop_take {T : Type} (g : Nat → List T) :
    ∀ (j a n s : Nat), j < n → (∀ i < j, (g (a + i)).length = s) →
      ((((List.range' a n).map g).flatten).drop (j * s)).take (g (a + j)).length
        = g (a + j) := by
  intro j
  induction j with
  | zero =>
    intro a n s hj _
    cases n with
    | zero => omega
    | succ m =>
      rw [List.range'_succ, List.map_cons, List.flatten_cons, Nat.zero_mul,
        List.drop_zero, Nat.add_zero]
      exact List.take_left (g a) _
  | succ j ih =>
    intro a n s hj hfull
    cases n with
    | zero => omega
    | succ m =>
      have ha : (g a).length = s := by
        have := hfull 0 (Nat.succ_pos j)
        simpa using this
      have harith : (j + 1) * s = (g a).length + j * s := by
        rw [ha]
        ring
      rw [List.range'_succ, List.map_cons, List.flatten_cons, harith,
        List.drop_append]
      have hfull' : ∀ i < j, (g (a + 1 + i)).length = s := by
        intro i hi
        have := hfull (i + 1) (by omega)
        have harg : a + (i + 1) = a + 1 + i := by ring
        rwa [harg] at this
      have := ih (a + 1) m s (by omega) hfull'
      have harg : a + 1 + j = a + (j + 1) := by ring
      rwa [harg] at this

/-! Helper lemmas on the selector: both moves keep a valid in-range
selection on a non-empty list. -/

lemma applyMove_preserves (c : Containers) (i : Nat) (hne : c.items ≠ [])
    (hsel : c.list_state = some i) (hlt : i < c.items.length) (m : Move) :
    ∃ c' j, applyMove c m = .value c' ∧ c'.items = c.items ∧
      c'.list_state = some j ∧ j < c.items.length := by
  have hlen : 1 ≤ c.items.length := List.length_pos.mpr hne
  cases m with
  | up =>
    refine ⟨select_previous c, if i = 0 then 0 else i - 1, rfl, rfl, ?_, ?_⟩
    · simp [select_previous, hsel]
    · split <;> omega
  | down =>
    have hsub : usizeSub c.items.length 1 = .value (c.items.length - 1) := by
      simp [usizeSub, hlen]
    have hstep : applyMove c .down = .value { c with
        list_state := some (if i ≥ c.items.length - 1 then i else i + 1) } := by
      simp only [applyMove, select_next, hsel, hsub]
    exact ⟨_, _, hstep, rfl, rfl, by split <;> omega⟩

lemma applyMoves_preserves (moves : List Move) :
    ∀ (c : Containers) (i : Nat), c.items ≠ [] → c.list_state = some i →
      i < c.items.length →
      ∃ c' j, applyMoves c moves = .value c' ∧ c'.items = c.items ∧
        c'.list_state = some j ∧ j < c.items.length := by
  induction moves with
  | nil =>
    intro c i hne hsel hlt
    exact ⟨c, i, rfl, rfl, hsel, hlt⟩
  | cons m ms ih =>
    intro c i hne hsel hlt
    rcases applyMove_preserves c i hne hsel hlt m with ⟨c1, j1, hstep, hitems, hsel1, hlt1⟩
    have hne1 : c1.items ≠ [] := by rw [hitems]; exact hne
    have hlt1' : j1 < c1.items.length := by rw [hitems]; exact hlt1
    rcases ih c1 j1 hne1 hsel1 hlt1' with ⟨c', j, hrun, hitems', hsel', hlt'⟩
    rw [hitems] at hitems' hlt'
    exact ⟨c', j, by simp [applyMoves, hstep, hrun], hitems', hsel', hlt'⟩

/-! Characterisation of the exit paths of `fetch`, by case on the first
page's outcome. -/

lemma fetch_eq_of_first_error {T : Type}
    (decode : Json → Except String (ApiResult T))
    (net : PageRequest → Except String Response) (url : String)
    (completed : List Nat) (e : FetchErr)
    (hfo : fetchOnce decode (net (firstRequest url)) = .error e) :
    fetch decode net url completed = .failed e := by
  unfold fetch
  simp only [hfo]

lemma fetch_eq_of_no_next {T : Type}
    (decode : Json → Except String (ApiResult T))
    (net : PageRequest → Except String Response) (url : String)
    (completed : List Nat) (result : ApiResult T)
    (hfo : fetchOnce decode (net (firstRequest url)) = .ok result)
    (hnx : result.next = none) :
    fetch decode net url completed = .ok result.results := by
  unfold fetch
  simp only [hfo, hnx]

lemma fetch_eq_panic_of_empty {T : Type}
    (decode : Json → Except String (ApiResult T))
    (net : PageRequest → Except String Response) (url : String)
    (completed : List Nat) (result : ApiResult T) (nxt : String)
    (hfo : fetchOnce decode (net (firstRequest url)) = .ok result)
    (hnx : result.next = some nxt)
    (hz : result.results.length = 0) :
    fetch decode net url completed = .panicked "attempt to divide by zero" := by
  unfold fetch
  simp only [hfo, hnx, hz, if_pos]

lemma fetch_eq_reduce {T : Type}
    (decode : Json → Except String (ApiResult T))
    (net : PageRequest → Except String Response) (url : String)
    (completed : List Nat) (result : ApiResult T) (nxt : String)
    (hfo : fetchOnce decode (net (firstRequest url)) = .ok result)
    (hnx : result.next = some nxt)
    (hs : result.results.length ≠ 0) :
    fetch decode net url completed =
      reduceOutcomes result.results
        (joinAll ((pagesToFetch result.count result.results.length).map
          (fun page => taskRun decode net url page result.results.length))
          completed) := by
  unfold fetch
  simp only [hfo, hnx]
  rw [if_neg hs]

/-! The claims. -/

/-- C1: at the spec's worked scenario — first page with `count = 12`, five
items and `next` present — the code computes `pages = ceil(12/5) = 3` but
its loop `for page in 2..pages` runs over the half-open range `[2, 3)`, so
it requests page 2 only, not pages 2 and 3, and the merged result has
length 10, not 12. The claimed `ceil(c/s) - 1 = 2` additional requests and
final length `c = 12` do not hold on the code. -/
theorem fetch_offByOne_at_count12_size5 :
    pagesToFetch 12 5 = [2] ∧
    requestsMade demoDecode demoNet "https://hub.docker.com/v2/repositories/ollama"
      = [firstRequest "https://hub.docker.com/v2/repositories/ollama",
         pageRequest "https://hub.docker.com/v2/repositories/ollama" 2 5] ∧
    fetch demoDecode demoNet "https://hub.docker.com/v2/repositories/ollama" [0]
      = .ok (demoItems 1 ++ demoItems 2) ∧
    (demoItems 1 ++ demoItems 2).length = 10 :=
  ⟨rfl, rfl, rfl, rfl⟩

/-- C4: a first page with `next` present but an empty item list drives the
code into `(count + 0 - 1) / 0`, a division by zero — a Rust panic — where
the claim requires a `DecodeError` return. -/
theorem fetch_empty_first_page_panics :
    fetch emptyPageDecode plainNet "u" [] = .panicked "attempt to divide by zero" :=
  rfl

/-- C2 counterexample: an HTTP 401 response whose body parses as the page
envelope is mapped by the code to a parsed `Success` — the status code is
never read — while the claimed taxonomy maps 401 to `Unauthorized`. -/
theorem fetchOnce_maps_401_to_success :
    fetchOnce demoDecode (.ok resp401) = .ok (demoPage 1) ∧
    specFetchOutcome demoDecode (.ok resp401) = .unauthorized :=
  ⟨rfl, rfl⟩

/-- C2 (amended): the single-page outcome is determined solely by the send
result and the body — the HTTP status code and the `X-Retry-After` header
are never consulted. A send failure carries the transport message, a body
that fails to decode as the envelope gives the parse error, and a decodable
body gives success whatever the status was. -/
theorem fetchOnce_status_blind {T : Type}
    (decode : Json → Except String (ApiResult T)) :
    (∀ (s s' : Nat) (h h' : Option String) (b : Except String Json),
      fetchOnce decode (.ok { status := s, retryAfter := h, body := b })
        = fetchOnce decode (.ok { status := s', retryAfter := h', body := b })) ∧
    (∀ e, fetchOnce decode (.error e) = .error (.sendFailed e)) ∧
    (∀ resp e, resp.body = .error e →
      fetchOnce decode (.ok resp) = .error (.jsonFailed e)) ∧
    (∀ resp out r, resp.body = .ok out → decode out = .ok r →
      fetchOnce decode (.ok resp) = .ok r) ∧
    (∀ resp out m, resp.body = .ok out → decode out = .error m →
      fetchOnce decode (.ok resp) = .error (.parseFailed m)) := by
  refine ⟨fun s s' h h' b => rfl, fun e => rfl, ?_, ?_, ?_⟩
  · intro resp e hbody
    simp [fetchOnce, hbody]
  · intro resp out r hbody hdec
    simp [fetchOnce, hbody, hdec]
  · intro resp out m hbody hdec
    simp [fetchOnce, hbody, hdec]

/-- C2 witness: the status-blind mapping evaluated at the 401 fixture. -/
theorem fetchOnce_status_blind_witness :
    fetchOnce demoDecode (.ok resp401) = .ok (demoPage 1) :=
  (fetchOnce_status_blind demoDecode).2.2.2.1 resp401 (.num 1) (demoPage 1) rfl rfl

/-- C3 counterexample: with the page-2 task already failed and the page-3
task still pending (only completion 0 has arrived), the join_all barrier
cannot return: the orchestrator keeps waiting for the sibling instead of
cancelling it and returning early as the claim requires. -/
theorem joinAll_waits_despite_failure :
    joinSlots cexTasks [0]
      = [some (.fetchErr (.sendFailed "429 Too Many Requests")), none] ∧
    ¬ joinAllReturns cexTasks [0] := by
  refine ⟨rfl, fun h => ?_⟩
  have hmem : (none : Option (TaskResult String)) ∈ joinSlots cexTasks [0] := by
    have hslots : joinSlots cexTasks [0]
        = [some (.fetchErr (.sendFailed "429 Too Many Requests")), none] := rfl
    rw [hslots]
    simp
  simpa using h none hmem

/-- C3 (amended): `fetch` requests no cancellation: the join_all barrier
returns exactly when every spawned task has completed, whatever order the
completions arrive in; only then is the first failure surfaced. -/
theorem joinAll_returns_iff_all_completed {α : Type} (tasks : List α)
    (completed : List Nat) :
    joinAllReturns tasks completed ↔ ∀ j < tasks.length, j ∈ completed :=
  joinAllReturns_iff_helper tasks completed

/-- C3 witness: the barrier does return once both demo tasks completed,
even with the completions arriving in reverse order. -/
theorem joinAll_returns_iff_all_completed_witness :
    joinAllReturns cexTasks [1, 0] :=
  (joinAll_returns_iff_all_completed cexTasks [1, 0]).mpr (by decide)

/-- C8: on a non-empty list the selector clamps at both ends — move-up at
index 0 stays at 0, move-down at the last index stays there — and any
sequence of moves keeps the selection at a valid index, never wrapping. -/
theorem selector_clamps_at_ends (c : Containers) (hne : c.items ≠ []) :
    (c.list_state = some 0 → (select_previous c).list_state = some 0) ∧
    (c.list_state = some (c.items.length - 1) →
      select_next c = .value { c with list_state := some (c.items.length - 1) }) ∧
    (∀ i, c.list_state = some i → i < c.items.length →
      ∀ moves : List Move, ∃ c' j, applyMoves c moves = .value c' ∧
        c'.items = c.items ∧ c'.list_state = some j ∧ j < c.items.length) := by
  have hlen : 1 ≤ c.items.length := List.length_pos.mpr hne
  refine ⟨?_, ?_, ?_⟩
  · intro h
    simp [select_previous, h]
  · intro h
    have hsub : usizeSub c.items.length 1 = .value (c.items.length - 1) := by
      simp [usizeSub, hlen]
    simp [select_next, h, hsub]
  · intro i hsel hlt moves
    exact applyMoves_preserves moves c i hne hsel hlt

/-- C8 witness: a three-item list clamps at index 0 under move-up, at index
2 under move-down, and survives an arbitrary move sequence in range. -/
theorem selector_clamps_at_ends_witness :
    (select_previous threeContainers).list_state = some 0 :=
  (selector_clamps_at_ends threeContainers (by simp [threeContainers])).1 rfl

/-- C9 counterexample: when the fetch failed, `App::new` builds an empty
list yet selects `Some(0)`; the very next `select_next` then evaluates
`items.len() - 1` on `len() == 0` and the `usize` subtraction underflows —
a panic under overflow checks, not the total no-op the claim states. -/
theorem select_next_empty_panics :
    (App.new (.error "connection refused")).containers.items = [] ∧
    (App.new (.error "connection refused")).containers.list_state = some 0 ∧
    select_next (App.new (.error "connection refused")).containers
      = .panicked "attempt to subtract with overflow" :=
  ⟨rfl, rfl, rfl⟩

/-- C9 (amended): `App::new` always selects `Some(0)`, even on a failed
fetch with the resulting empty list; `select_previous` is total and always
leaves a selection; on a NON-empty list with an in-range selection both
moves are panic-free and keep the selection in range. On the empty list
`select_next` underflows instead of being total. -/
theorem selector_totality (fetched : Except String (List String)) :
    (App.new fetched).containers.list_state = some 0 ∧
    (∀ e, fetched = .error e → (App.new fetched).containers.items = []) ∧
    (∀ c : Containers, (select_previous c).list_state ≠ none) ∧
    (∀ c : Containers, c.items ≠ [] → ∀ i, c.list_state = some i →
      i < c.items.length →
      (∃ c', select_next c = .value c' ∧ c'.items = c.items ∧
        ∃ j, c'.list_state = some j ∧ j < c.items.length) ∧
      (∃ j, (select_previous c).list_state = some j ∧ j < c.items.length)) := by
  refine ⟨rfl, ?_, ?_, ?_⟩
  · intro e he
    rw [he]
    rfl
  · intro c
    simp [select_previous]
  · intro c hne i hsel hlt
    constructor
    · rcases applyMove_preserves c i hne hsel hlt .down with ⟨c', j, hstep, hitems, hsel', hlt'⟩
      exact ⟨c', by simpa [applyMove] using hstep, hitems, j, hsel', hlt'⟩
    · rcases applyMove_preserves c i hne hsel hlt .up with ⟨c', j, hstep, hitems, hsel', hlt'⟩
      have heq : select_previous c = c' := by
        simpa [applyMove, Panics.value.injEq] using hstep
      exact ⟨j, by rw [heq]; exact hsel', hlt'⟩

/-- C9 witness: the amended theorem evaluated on a one-item list. -/
theorem selector_totality_witness :
    (App.new (.ok ["ollama"])).containers.list_state = some 0 :=
  (selector_totality (.ok ["ollama"])).1

/-- C10: the registry body extraction returns `Ok` exactly when the keyed
field is a JSON array, and then yields, in order, exactly the string
elements of that array, silently dropping non-strings; `list_tags` behaves
identically over the `tags` field. -/
theorem registry_extracts_string_arrays (r : Json) :
    (∀ xs, r.index "repositories" = .arr xs →
      list_repositories_body r = .ok (xs.filterMap Json.asStr)) ∧
    ((∀ xs, r.index "repositories" ≠ .arr xs) →
      list_repositories_body r = .error "Invalid response format") ∧
    (∀ xs, r.index "tags" = .arr xs →
      list_tags_body r = .ok (xs.filterMap Json.asStr)) ∧
    ((∀ xs, r.index "tags" ≠ .arr xs) →
      list_tags_body r = .error "Invalid response format") := by
  refine ⟨?_, ?_, ?_, ?_⟩
  · intro xs hidx
    simp [list_repositories_body, extractNamedArray, hidx, Json.asArray]
  · intro hnot
    unfold list_repositories_body extractNamedArray
    cases hidx : (r.index "repositories") with
    | arr xs => exact absurd hidx (hnot xs)
    | _ => simp [Json.asArray]
  · intro xs hidx
    simp [list_tags_body, extractNamedArray, hidx, Json.asArray]
  · intro hnot
    unfold list_tags_body extractNamedArray
    cases hidx : (r.index "tags") with
    | arr xs => exact absurd hidx (hnot xs)
    | _ => simp [Json.asArray]

/-- C10 witness: a catalog body whose array mixes strings and a number
yields the strings, in order, with the number dropped. -/
theorem registry_extracts_string_arrays_witness :
    list_repositories_body
      (.obj [("repositories", .arr [.str "alpha", .num 3, .str "beta"])])
      = .ok ["alpha", "beta"] :=
  (registry_extracts_string_arrays
    (.obj [("repositories", .arr [.str "alpha", .num 3, .str "beta"])])).1
    [.str "alpha", .num 3, .str "beta"] rfl

/-- C5: whenever the spawned tasks all succeed, the merged result is the
first page's items followed by the fetched pages' items in ascending page
order, independent of the order in which the tasks complete; and when the
first page and every earlier fetched page carry exactly `s` items, the
items of fetched page `k = j + 2` start at offset `(k - 1) * s` of the
merged sequence. -/
theorem fetch_merges_in_page_order {T : Type}
    (decode : Json → Except String (ApiResult T))
    (net : PageRequest → Except String Response) (url : String)
    (completed completed' : List Nat)
    (result : ApiResult T) (nxt : String) (f : Nat → ApiResult T)
    (hfirst : fetchOnce decode (net (firstRequest url)) = .ok result)
    (hnext : result.next = some nxt)
    (hs : 0 < result.results.length)
    (hcomp : ∀ j < (pagesToFetch result.count result.results.length).length,
      j ∈ completed)
    (hcomp' : ∀ j < (pagesToFetch result.count result.results.length).length,
      j ∈ completed')
    (htasks : ∀ p ∈ pagesToFetch result.count result.results.length,
      taskRun decode net url p result.results.length = TaskResult.ok (f p)) :
    fetch decode net url completed = fetch decode net url completed' ∧
    fetch decode net url completed =
      .ok (result.results ++
        ((pagesToFetch result.count result.results.length).map
          (fun p => (f p).results)).flatten) ∧
    (∀ j, j < (pagesToFetch result.count result.results.length).length →
      (∀ i < j, (f (2 + i)).results.length = result.results.length) →
      ∀ merged, fetch decode net url completed = .ok merged →
        (merged.drop ((j + 1) * result.results.length)).take
          (f (2 + j)).results.length = (f (2 + j)).results) := by
  have hsne : result.results.length ≠ 0 := Nat.pos_iff_ne_zero.mp hs
  have htasks_eq : (pagesToFetch result.count result.results.length).map
      (fun page => taskRun decode net url page result.results.length)
      = ((pagesToFetch result.count result.results.length).map f).map
          TaskResult.ok := by
    rw [List.map_map]
    exact List.map_congr_left (fun p hp => htasks p hp)
  have hrun : ∀ comp : List Nat,
      (∀ j < (pagesToFetch result.count result.results.length).length,
        j ∈ comp) →
      fetch decode net url comp =
        .ok (result.results ++
          ((pagesToFetch result.count result.results.length).map
            (fun p => (f p).results)).flatten) := by
    intro comp hc
    rw [fetch_eq_reduce decode net url comp result nxt hfirst hnext hsne,
      htasks_eq, joinAll_of_complete, reduceOutcomes_all_ok, List.map_map]
    · rfl
    · intro j hj
      apply hc
      simpa using hj
  refine ⟨(hrun completed hcomp).trans (hrun completed' hcomp').symm,
    hrun completed hcomp, ?_⟩
  intro j hj hfull merged hmerged
  rw [hrun completed hcomp] at hmerged
  have hl : merged = result.results ++
      ((pagesToFetch result.count result.results.length).map
        (fun p => (f p).results)).flatten := by
    have := hmerged
    simp only [FetchResult.ok.injEq] at this
    exact this.symm
  have harith : (j + 1) * result.results.length
      = result.results.length + j * result.results.length := by ring
  rw [hl, harith, List.drop_append]
  have hjlt : j < (result.count + result.results.length - 1)
      / result.results.length - 2 := by
    have := hj
    unfold pagesToFetch at this
    simpa [List.length_range'] using this
  exact flatten_map_drop_take (fun p => (f p).results) j 2
    ((result.count + result.results.length - 1) / result.results.length - 2)
    result.results.length hjlt hfull

/-- C5 witness: in the demo scenario the merge is identical under the two
possible completion orders of the single spawned task slot, and equals the
ordered concatenation. -/
theorem fetch_merges_in_page_order_witness :
    fetch demoDecode demoNet "u" [0] = fetch demoDecode demoNet "u" [0, 0] ∧
    fetch demoDecode demoNet "u" [0] = .ok (demoItems 1 ++ demoItems 2) :=
  have h := fetch_merges_in_page_order demoDecode demoNet "u" [0] [0, 0]
    (demoPage 1) "https://hub.docker.com/?page=next" demoPage rfl rfl
    (by decide) (by decide) (by decide) (by decide)
  ⟨h.1, h.2.1⟩

/-- C6: the reduction over awaited task outcomes is all-or-nothing — any
non-success outcome (a failed fetch or a task that failed to run) makes the
whole reduction fail with the first such failure in page order, and an `ok`
result can only arise from every task succeeding, carrying the complete
concatenation; lifted to `fetch`, an `ok` result is always the first page's
items or the first page's items plus every fetched page's items. -/
theorem fetch_all_or_nothing {T : Type} (acc : List T)
    (outs : List (TaskResult T)) :
    ((∃ o ∈ outs, ∀ r, o ≠ TaskResult.ok r) →
      ∀ l, reduceOutcomes acc outs ≠ .ok l) ∧
    (∀ (rs : List (ApiResult T)) (e : FetchErr) (rest : List (TaskResult T)),
      outs = rs.map TaskResult.ok ++ TaskResult.fetchErr e :: rest →
      reduceOutcomes acc outs = .taskFailed e) ∧
    (∀ (rs : List (ApiResult T)) (m : String) (rest : List (TaskResult T)),
      outs = rs.map TaskResult.ok ++ TaskResult.joinErr m :: rest →
      reduceOutcomes acc outs = .joinFailed m) ∧
    (∀ l, reduceOutcomes acc outs = .ok l →
      ∃ rs : List (ApiResult T), outs = rs.map TaskResult.ok ∧
        l = acc ++ (rs.map (fun r => r.results)).flatten) ∧
    (∀ (decode : Json → Except String (ApiResult T))
       (net : PageRequest → Except String Response) (url : String)
       (completed : List Nat) (l : List T),
      fetch decode net url completed = .ok l →
      ∃ result : ApiResult T,
        fetchOnce decode (net (firstRequest url)) = .ok result ∧
        ((result.next = none ∧ l = result.results) ∨
         ∃ rs : List (ApiResult T),
           joinAll ((pagesToFetch result.count result.results.length).map
               (fun page => taskRun decode net url page result.results.length))
             completed = rs.map TaskResult.ok ∧
           l = result.results ++ (rs.map (fun r => r.results)).flatten)) := by
  refine ⟨?_, ?_, ?_, ?_, ?_⟩
  · rintro ⟨o, ho, hbad⟩ l hok
    rcases reduceOutcomes_ok_inv outs acc l hok with ⟨rs, hrs, -⟩
    subst hrs
    rcases List.mem_map.mp ho with ⟨r, -, hr⟩
    exact hbad r hr.symm
  · rintro rs e rest rfl
    exact reduceOutcomes_first_fetchErr rs e rest acc
  · rintro rs m rest rfl
    exact reduceOutcomes_first_joinErr rs m rest acc
  · intro l h
    exact reduceOutcomes_ok_inv outs acc l h
  · intro decode net url completed l h
    cases hfo : fetchOnce decode (net (firstRequest url)) with
    | error e =>
      rw [fetch_eq_of_first_error decode net url completed e hfo] at h
      exact absurd h (by simp)
    | ok result =>
      refine ⟨result, rfl, ?_⟩
      cases hnx : result.next with
      | none =>
        rw [fetch_eq_of_no_next decode net url completed result hfo hnx] at h
        simp only [FetchResult.ok.injEq] at h
        exact Or.inl ⟨rfl, h.symm⟩
      | some nxt =>
        right
        by_cases hz : result.results.length = 0
        · rw [fetch_eq_panic_of_empty decode net url completed result nxt hfo
            hnx hz] at h
          exact absurd h (by simp)
        · rw [fetch_eq_reduce decode net url completed result nxt hfo hnx hz]
            at h
          rcases reduceOutcomes_ok_inv _ _ _ h with ⟨rs, hrs, hl⟩
          exact ⟨rs, hrs, hl⟩

/-- C6 witness: a single rate-limited page outcome fails the whole
reduction and discards the accumulated items. -/
theorem fetch_all_or_nothing_witness :
    reduceOutcomes (demoItems 1)
      [TaskResult.fetchErr (FetchErr.sendFailed "429 Too Many Requests")]
      = FetchResult.taskFailed (FetchErr.sendFailed "429 Too Many Requests") :=
  (fetch_all_or_nothing (demoItems 1)
    [TaskResult.fetchErr (FetchErr.sendFailed "429 Too Many Requests")]).2.1
    [] (FetchErr.sendFailed "429 Too Many Requests") [] rfl

/-- C7 counterexample: the initial request of `fetch` carries no query
parameters at all — in particular neither `page=1` nor `page_size=10` as
the claim states. -/
theorem first_request_has_no_query :
    (firstRequest "https://hub.docker.com/v2/repositories/ollama").query = [] ∧
    ("page", 1) ∉
      (firstRequest "https://hub.docker.com/v2/repositories/ollama").query ∧
    ("page_size", 10) ∉
      (firstRequest "https://hub.docker.com/v2/repositories/ollama").query := by
  refine ⟨rfl, ?_, ?_⟩ <;> simp [firstRequest]

/-- C7 (amended): the sequential first step issues exactly one request —
the only one whose query string is empty — for the bare resource URL with
no `page`/`page_size` parameters (the server's defaults apply); every
subsequent request is for some page `p ≥ 2` of the computed page range and
carries `page=p` and `page_size=s` with `s` the observed first-page item
count. -/
theorem fetch_first_request_is_bare {T : Type}
    (decode : Json → Except String (ApiResult T))
    (net : PageRequest → Except String Response) (url : String) :
    (requestsMade decode net url).head? = some (firstRequest url) ∧
    (firstRequest url).query = [] ∧
    (∀ result, fetchOnce decode (net (firstRequest url)) = .ok result →
      ∀ r ∈ (requestsMade decode net url).tail,
        ∃ p ∈ pagesToFetch result.count result.results.length,
          2 ≤ p ∧ r = pageRequest url p result.results.length ∧
          r.query = [("page", p), ("page_size", result.results.length)]) ∧
    (requestsMade decode net url).countP (fun r => r.query.isEmpty) = 1 := by
  have htail : ∀ r ∈ (requestsMade decode net url).tail,
      ∃ result, fetchOnce decode (net (firstRequest url)) = .ok result ∧
        ∃ p ∈ pagesToFetch result.count result.results.length,
          2 ≤ p ∧ r = pageRequest url p result.results.length := by
    intro r hr
    unfold requestsMade at hr
    rw [List.tail_cons] at hr
    cases hfo : fetchOnce decode (net (firstRequest url)) with
    | error e =>
      simp only [hfo] at hr
      simp at hr
    | ok result =>
      simp only [hfo] at hr
      cases hnx : result.next with
      | none =>
        simp only [hnx] at hr
        simp at hr
      | some nxt =>
        simp only [hnx] at hr
        by_cases hz : result.results.length = 0
        · simp [hz] at hr
        · simp only [if_neg hz] at hr
          rcases List.mem_map.mp hr with ⟨p, hp, hpr⟩
          have h2 : 2 ≤ p := by
            unfold pagesToFetch at hp
            rw [List.mem_range'] at hp
            omega
          exact ⟨result, rfl, p, hp, h2, hpr.symm⟩
  refine ⟨rfl, rfl, ?_, ?_⟩
  · intro result hfo r hr
    rcases htail r hr with ⟨result', hfo', p, hp, h2, hpr⟩
    have hrr : result' = result := by
      rw [hfo] at hfo'
      exact (Except.ok.inj hfo').symm
    subst hrr
    exact ⟨p, hp, h2, hpr, by simp [hpr, pageRequest]⟩
  · have hhead : requestsMade decode net url
        = firstRequest url :: (requestsMade decode net url).tail := by
      unfold requestsMade
      rfl
    rw [hhead, List.countP_cons]
    have hzero : (requestsMade decode net url).tail.countP
        (fun r => r.query.isEmpty) = 0 := by
      rw [List.countP_eq_zero]
      intro r hr
      rcases htail r hr with ⟨result, -, p, -, -, hpr⟩
      rw [hpr]
      simp [pageRequest]
    rw [hzero]
    simp [firstRequest]

/-- C7 witness: the request trace of the demo scenario — one bare first
request, then the page-2 request carrying the query pair. -/
theorem fetch_first_request_is_bare_witness :
    (requestsMade demoDecode demoNet "u").head? = some (firstRequest "u") :=
  (fetch_first_request_is_bare demoDecode demoNet "u").1

end HubTool
